import Mathlib

/-!
Shallow embedding of the Database layer of the school-management
application (src/pyqt.py, with src/tkinter.py duplicating the same
logic).  The four SQLite tables become lists of rows; AUTOINCREMENT
primary keys become explicit next-id counters (SQLite AUTOINCREMENT
never reuses an id); each Database method becomes a function from the
state and its arguments to the new state paired with a result flag
(`ok` for the success path, `error` for a path that only shows an
error dialog).  `sqlite3` runs with foreign-key enforcement off (the
code never issues `PRAGMA foreign_keys`), so no implicit FK checks are
modelled.  `SELECT *` returns rows in rowid order, which for these
tables is insertion order, so `get_students` and friends return the
row list as stored.
-/

/-- ASCII letter, the class `[a-zA-Z]` of the email regex. -/
def isAsciiLetter (c : Char) : Bool :=
  (decide ('a' ≤ c) && decide (c ≤ 'z')) || (decide ('A' ≤ c) && decide (c ≤ 'Z'))

/-- ASCII digit, `[0-9]`. -/
def isAsciiDigit (c : Char) : Bool :=
  decide ('0' ≤ c) && decide (c ≤ '9')

/-- The local-part class `[a-zA-Z0-9._%+-]` of the email regex. -/
def isLocalChar (c : Char) : Bool :=
  isAsciiLetter c || isAsciiDigit c || c == '.' || c == '_' || c == '%' || c == '+' || c == '-'

/-- The domain class `[a-zA-Z0-9.-]` of the email regex. -/
def isDomainChar (c : Char) : Bool :=
  isAsciiLetter c || isAsciiDigit c || c == '.' || c == '-'

/-- Backtracking matcher for the regex fragment `[a-zA-Z0-9.-]*\.[a-zA-Z]{2,}`
anchored to the end of the list: the remaining characters split as a
(possibly empty) run of domain characters, a literal dot, and at least
two ASCII letters. -/
def suffixMatch : List Char → Bool
  | [] => false
  | c :: rest =>
      (c == '.' && decide (2 ≤ rest.length) && rest.all isAsciiLetter)
        || (isDomainChar c && suffixMatch rest)

/-- Matcher for `[a-zA-Z0-9.-]+\.[a-zA-Z]{2,}` anchored to the end. -/
def domainMatch : List Char → Bool
  | [] => false
  | c :: rest => isDomainChar c && suffixMatch rest

/-- Matcher for `[a-zA-Z0-9._%+-]*@` followed by the domain part,
anchored to the end. -/
def localRest : List Char → Bool
  | [] => false
  | c :: rest => (c == '@' && domainMatch rest) || (isLocalChar c && localRest rest)

/-- Full matcher for `[a-zA-Z0-9._%+-]+@[a-zA-Z0-9.-]+\.[a-zA-Z]{2,}`
against the whole character list. -/
def emailMatch : List Char → Bool
  | [] => false
  | c :: rest => isLocalChar c && localRest rest

/-- `Database.validate_email`: Python's
`re.match(r'^[a-zA-Z0-9._%+-]+@[a-zA-Z0-9.-]+\.[a-zA-Z]{2,}$', email) is not None`.
In Python (without `re.MULTILINE`) `$` matches at the end of the string
or just before a newline at the end of the string, so the pattern also
accepts a matching string followed by one final newline character. -/
def validate_email (email : String) : Bool :=
  emailMatch email.data
    || (email.data.getLast? == some '\n' && emailMatch email.data.dropLast)

/-- The spec's reading of the regex on a character list: one or more
characters from `[a-zA-Z0-9._%+-]`, then `@`, then one or more
characters from `[a-zA-Z0-9.-]`, then `.`, then at least two ASCII
letters, with nothing after them. -/
def emailSpecList (cs : List Char) : Prop :=
  ∃ l d t, cs = l ++ '@' :: (d ++ '.' :: t)
    ∧ l ≠ [] ∧ (∀ c ∈ l, isLocalChar c = true)
    ∧ d ≠ [] ∧ (∀ c ∈ d, isDomainChar c = true)
    ∧ 2 ≤ t.length ∧ (∀ c ∈ t, isAsciiLetter c = true)

/-- The spec's reading of `validate_email` on a string. -/
def emailSpec (e : String) : Prop := emailSpecList e.data

/-- A row of the `students` table: (student_id, name, age, email). -/
structure StudentRow where
  student_id : Int
  name : String
  age : Int
  email : String
deriving DecidableEq, Repr

/-- A row of the `instructors` table: (instructor_id, name, age, email). -/
structure InstructorRow where
  instructor_id : Int
  name : String
  age : Int
  email : String
deriving DecidableEq, Repr

/-- A row of the `courses` table: (course_id, course_name, instructor_id). -/
structure CourseRow where
  course_id : Int
  course_name : String
  instructor_id : Int
deriving DecidableEq, Repr

/-- The `Student` class: name, age, email (the id is assigned by the
database). -/
structure Student where
  name : String
  age : Int
  email : String
deriving DecidableEq, Repr

/-- The `Instructor` class: name, age, email. -/
structure Instructor where
  name : String
  age : Int
  email : String
deriving DecidableEq, Repr

/-- The `Course` class: course_name and instructor_id. -/
structure Course where
  course_name : String
  instructor_id : Int
deriving DecidableEq, Repr

/-- Outcome of a Database method: the success path (`show_info` or
silent return) or an error path (`show_error` dialog, no write). -/
inductive DBResult where
  | ok : DBResult
  | error : DBResult
deriving DecidableEq, Repr

/-- The SQLite database state: the four tables in rowid (= insertion)
order, plus the AUTOINCREMENT counters for the three id columns. -/
structure DBState where
  students : List StudentRow
  instructors : List InstructorRow
  courses : List CourseRow
  student_courses : List (Int × Int)
  nextStudentId : Int
  nextInstructorId : Int
  nextCourseId : Int
deriving DecidableEq, Repr

/-- The state just after `create_tables` on a fresh database file. -/
def emptyDB : DBState :=
  { students := [], instructors := [], courses := [], student_courses := []
  , nextStudentId := 1, nextInstructorId := 1, nextCourseId := 1 }

/-- `Database.add_student`: rejects an invalid email, then a
non-positive age, otherwise inserts the row with a fresh id and
commits. -/
def add_student (db : DBState) (student : Student) : DBState × DBResult :=
  if validate_email student.email = false then (db, .error)
  else if student.age ≤ 0 then (db, .error)
  else
    ({ db with
        students := db.students ++
          [{ student_id := db.nextStudentId, name := student.name
           , age := student.age, email := student.email }]
      , nextStudentId := db.nextStudentId + 1 }, .ok)

/-- `Database.add_instructor`: same validation as `add_student`. -/
def add_instructor (db : DBState) (instructor : Instructor) : DBState × DBResult :=
  if validate_email instructor.email = false then (db, .error)
  else if instructor.age ≤ 0 then (db, .error)
  else
    ({ db with
        instructors := db.instructors ++
          [{ instructor_id := db.nextInstructorId, name := instructor.name
           , age := instructor.age, email := instructor.email }]
      , nextInstructorId := db.nextInstructorId + 1 }, .ok)

/-- `Database.add_course`: errors if no instructor row has the given
instructor_id, then if some course row already has the given
course_name, otherwise inserts the course with a fresh id. -/
def add_course (db : DBState) (course : Course) : DBState × DBResult :=
  if db.instructors.any (fun r => r.instructor_id == course.instructor_id) = false then
    (db, .error)
  else if db.courses.any (fun r => r.course_name == course.course_name) = true then
    (db, .error)
  else
    ({ db with
        courses := db.courses ++
          [{ course_id := db.nextCourseId, course_name := course.course_name
           , instructor_id := course.instructor_id }]
      , nextCourseId := db.nextCourseId + 1 }, .ok)

/-- `Database.register_student_course`: the INSERT violates the
`(student_id, course_id)` primary key exactly when the pair is already
present; the IntegrityError is caught and shown, with no write. -/
def register_student_course (db : DBState) (student_id course_id : Int) :
    DBState × DBResult :=
  if db.student_courses.any (fun p => p.1 == student_id && p.2 == course_id) then
    (db, .error)
  else
    ({ db with student_courses := db.student_courses ++ [(student_id, course_id)] }, .ok)

/-- `Database.update_course_instructor`: a single unconditional UPDATE
of `instructor_id` for the rows with the given course_id. -/
def update_course_instructor (db : DBState) (course_id instructor_id : Int) :
    DBState × DBResult :=
  ({ db with
      courses := db.courses.map fun c =>
        if c.course_id == course_id then { c with instructor_id := instructor_id } else c }
  , .ok)

/-- `Database.delete_student`: DELETE FROM students WHERE student_id = ?. -/
def delete_student (db : DBState) (student_id : Int) : DBState × DBResult :=
  ({ db with students := db.students.filter fun r => !(r.student_id == student_id) }, .ok)

/-- `Database.delete_instructor`: DELETE FROM instructors WHERE instructor_id = ?. -/
def delete_instructor (db : DBState) (instructor_id : Int) : DBState × DBResult :=
  ({ db with
      instructors := db.instructors.filter fun r => !(r.instructor_id == instructor_id) }
  , .ok)

/-- `Database.delete_course`: DELETE FROM courses WHERE course_id = ?. -/
def delete_course (db : DBState) (course_id : Int) : DBState × DBResult :=
  ({ db with courses := db.courses.filter fun r => !(r.course_id == course_id) }, .ok)

/-- `Database.update_student`: a single unconditional UPDATE of name,
age and email for the rows with the given student_id; no validation. -/
def update_student (db : DBState) (student_id : Int) (name : String) (age : Int)
    (email : String) : DBState × DBResult :=
  ({ db with
      students := db.students.map fun r =>
        if r.student_id == student_id then
          { r with name := name, age := age, email := email }
        else r }
  , .ok)

/-- `Database.update_instructor`: same shape as `update_student`. -/
def update_instructor (db : DBState) (instructor_id : Int) (name : String) (age : Int)
    (email : String) : DBState × DBResult :=
  ({ db with
      instructors := db.instructors.map fun r =>
        if r.instructor_id == instructor_id then
          { r with name := name, age := age, email := email }
        else r }
  , .ok)

/-- `Database.update_course`: a single unconditional UPDATE of
course_name and instructor_id for the rows with the given course_id;
no uniqueness or existence check. -/
def update_course (db : DBState) (course_id : Int) (course_name : String)
    (instructor_id : Int) : DBState × DBResult :=
  ({ db with
      courses := db.courses.map fun c =>
        if c.course_id == course_id then
          { c with course_name := course_name, instructor_id := instructor_id }
        else c }
  , .ok)

/-- `Database.get_students`: SELECT * FROM students. -/
def get_students (db : DBState) : List StudentRow := db.students

/-- `Database.get_instructors`: SELECT * FROM instructors. -/
def get_instructors (db : DBState) : List InstructorRow := db.instructors

/-- `Database.get_courses`: SELECT * FROM courses. -/
def get_courses (db : DBState) : List CourseRow := db.courses

/-- One call to a write method of the Database layer. -/
inductive DBOp where
  | addStudent (s : Student)
  | addInstructor (i : Instructor)
  | addCourse (c : Course)
  | registerStudentCourse (student_id course_id : Int)
  | updateCourseInstructor (course_id instructor_id : Int)
  | deleteStudent (student_id : Int)
  | deleteInstructor (instructor_id : Int)
  | deleteCourse (course_id : Int)
  | updateStudent (student_id : Int) (name : String) (age : Int) (email : String)
  | updateInstructor (instructor_id : Int) (name : String) (age : Int) (email : String)
  | updateCourse (course_id : Int) (course_name : String) (instructor_id : Int)
deriving DecidableEq, Repr

/-- Dispatch one write operation, returning new state and result. -/
def applyOpR (db : DBState) (op : DBOp) : DBState × DBResult :=
  match op with
  | .addStudent s => add_student db s
  | .addInstructor i => add_instructor db i
  | .addCourse c => add_course db c
  | .registerStudentCourse sid cid => register_student_course db sid cid
  | .updateCourseInstructor cid iid => update_course_instructor db cid iid
  | .deleteStudent sid => delete_student db sid
  | .deleteInstructor iid => delete_instructor db iid
  | .deleteCourse cid => delete_course db cid
  | .updateStudent sid n a e => update_student db sid n a e
  | .updateInstructor iid n a e => update_instructor db iid n a e
  | .updateCourse cid n iid => update_course db cid n iid

/-- The state after one write operation. -/
def applyOp (db : DBState) (op : DBOp) : DBState := (applyOpR db op).1

/-- The state reached from an empty database by a sequence of writes. -/
def runOps (ops : List DBOp) : DBState := ops.foldl applyOp emptyDB

/-- No two rows of the courses table share a course_name. -/
def courseNamesUnique (db : DBState) : Prop :=
  (db.courses.map fun c => c.course_name).Nodup

/-- A students row with a valid email and positive age. -/
def studentRowOk (r : StudentRow) : Prop :=
  validate_email r.email = true ∧ 0 < r.age

/-- An instructors row with a valid email and positive age. -/
def instructorRowOk (r : InstructorRow) : Prop :=
  validate_email r.email = true ∧ 0 < r.age

/-- Every students row and every instructors row carries a
`validate_email`-accepted email and a strictly positive age. -/
def peopleRowsOk (db : DBState) : Prop :=
  (∀ r ∈ db.students, studentRowOk r) ∧ (∀ r ∈ db.instructors, instructorRowOk r)

/-- Recognizer for `updateCourse` operations. -/
def isUpdateCourseOp : DBOp → Bool
  | .updateCourse _ _ _ => true
  | _ => false

/-- Recognizer for `updateStudent` and `updateInstructor` operations. -/
def isPersonUpdateOp : DBOp → Bool
  | .updateStudent _ _ _ _ => true
  | .updateInstructor _ _ _ _ => true
  | _ => false

/-- A small populated state: one valid student, one valid instructor,
one course taught by that instructor, one enrollment.  Reachable from
`emptyDB` and used to instantiate theorems on concrete inputs. -/
def dbSample : DBState :=
  { students := [{ student_id := 1, name := "S", age := 20, email := "s@x.co" }]
  , instructors := [{ instructor_id := 1, name := "I", age := 30, email := "i@x.co" }]
  , courses := [{ course_id := 1, course_name := "CS", instructor_id := 1 }]
  , student_courses := [(1, 1)]
  , nextStudentId := 2, nextInstructorId := 2, nextCourseId := 2 }

instance (r : StudentRow) : Decidable (studentRowOk r) :=
  inferInstanceAs (Decidable (validate_email r.email = true ∧ 0 < r.age))

instance (r : InstructorRow) : Decidable (instructorRowOk r) :=
  inferInstanceAs (Decidable (validate_email r.email = true ∧ 0 < r.age))

instance (db : DBState) : Decidable (courseNamesUnique db) := by
  unfold courseNamesUnique; infer_instance

/-! ## Characterisation of the email matcher -/

theorem suffixMatch_iff (cs : List Char) :
    suffixMatch cs = true ↔
      ∃ d t, cs = d ++ '.' :: t ∧ (∀ c ∈ d, isDomainChar c = true)
        ∧ 2 ≤ t.length ∧ (∀ c ∈ t, isAsciiLetter c = true) := by
  induction cs with
  | nil =>
      constructor
      · intro h; simp [suffixMatch] at h
      · rintro ⟨d, t, heq, -⟩; simp at heq
  | cons c rest ih =>
      simp only [suffixMatch, Bool.or_eq_true, Bool.and_eq_true, beq_iff_eq,
        decide_eq_true_eq, List.all_eq_true, ih]
      constructor
      · rintro (⟨⟨hc, hlen⟩, hall⟩ | ⟨hdom, d, t, heq, hd, hlen, ht⟩)
        · exact ⟨[], rest, by simp [hc], by simp, hlen, hall⟩
        · refine ⟨c :: d, t, by simp [heq], ?_, hlen, ht⟩
          intro x hx
          rcases List.mem_cons.mp hx with rfl | hx
          · exact hdom
          · exact hd x hx
      · rintro ⟨d, t, heq, hd, hlen, ht⟩
        cases d with
        | nil =>
            simp only [List.nil_append, List.cons.injEq] at heq
            obtain ⟨rfl, rfl⟩ := heq
            exact Or.inl ⟨⟨rfl, hlen⟩, ht⟩
        | cons c0 d' =>
            simp only [List.cons_append, List.cons.injEq] at heq
            obtain ⟨rfl, rfl⟩ := heq
            exact Or.inr ⟨hd c (by simp), d', t, rfl,
              fun x hx => hd x (by simp [hx]), hlen, ht⟩

theorem domainMatch_iff (cs : List Char) :
    domainMatch cs = true ↔
      ∃ d t, cs = d ++ '.' :: t ∧ d ≠ [] ∧ (∀ c ∈ d, isDomainChar c = true)
        ∧ 2 ≤ t.length ∧ (∀ c ∈ t, isAsciiLetter c = true) := by
  cases cs with
  | nil =>
      constructor
      · intro h; simp [domainMatch] at h
      · rintro ⟨d, t, heq, hne, -⟩; simp at heq
  | cons c rest =>
      simp only [domainMatch, Bool.and_eq_true, suffixMatch_iff]
      constructor
      · rintro ⟨hdom, d', t, rfl, hd', hlen, ht⟩
        refine ⟨c :: d', t, rfl, by simp, ?_, hlen, ht⟩
        intro x hx
        rcases List.mem_cons.mp hx with rfl | hx
        · exact hdom
        · exact hd' x hx
      · rintro ⟨d, t, heq, hne, hd, hlen, ht⟩
        cases d with
        | nil => exact absurd rfl hne
        | cons c0 d' =>
            simp only [List.cons_append, List.cons.injEq] at heq
            obtain ⟨rfl, rfl⟩ := heq
            exact ⟨hd c (by simp), d', t, rfl,
              fun x hx => hd x (by simp [hx]), hlen, ht⟩

theorem localRest_iff (cs : List Char) :
    localRest cs = true ↔
      ∃ l r, cs = l ++ '@' :: r ∧ (∀ c ∈ l, isLocalChar c = true)
        ∧ domainMatch r = true := by
  induction cs with
  | nil =>
      constructor
      · intro h; simp [localRest] at h
      · rintro ⟨l, r, heq, -⟩; simp at heq
  | cons c rest ih =>
      simp only [localRest, Bool.or_eq_true, Bool.and_eq_true, beq_iff_eq, ih]
      constructor
      · rintro (⟨rfl, hdom⟩ | ⟨hloc, l, r, rfl, hl, hdom⟩)
        · exact ⟨[], rest, rfl, by simp, hdom⟩
        · refine ⟨c :: l, r, rfl, ?_, hdom⟩
          intro x hx
          rcases List.mem_cons.mp hx with rfl | hx
          · exact hloc
          · exact hl x hx
      · rintro ⟨l, r, heq, hl, hdom⟩
        cases l with
        | nil =>
            simp only [List.nil_append, List.cons.injEq] at heq
            obtain ⟨rfl, rfl⟩ := heq
            exact Or.inl ⟨rfl, hdom⟩
        | cons c0 l' =>
            simp only [List.cons_append, List.cons.injEq] at heq
            obtain ⟨rfl, rfl⟩ := heq
            exact Or.inr ⟨hl c (by simp), l', r, rfl,
              fun x hx => hl x (by simp [hx]), hdom⟩

theorem emailMatch_iff (cs : List Char) : emailMatch cs = true ↔ emailSpecList cs := by
  cases cs with
  | nil =>
      constructor
      · intro h; simp [emailMatch] at h
      · rintro ⟨l, d, t, heq, -⟩; simp at heq
  | cons c rest =>
      simp only [emailMatch, Bool.and_eq_true, localRest_iff, emailSpecList]
      constructor
      · rintro ⟨hloc, l', r, rfl, hl', hdom⟩
        obtain ⟨d, t, rfl, hdne, hd, hlen, ht⟩ := (domainMatch_iff r).mp hdom
        refine ⟨c :: l', d, t, rfl, by simp, ?_, hdne, hd, hlen, ht⟩
        intro x hx
        rcases List.mem_cons.mp hx with rfl | hx
        · exact hloc
        · exact hl' x hx
      · rintro ⟨l, d, t, heq, hlne, hl, hdne, hd, hlen, ht⟩
        cases l with
        | nil => exact absurd rfl hlne
        | cons c0 l' =>
            simp only [List.cons_append, List.cons.injEq] at heq
            obtain ⟨rfl, rfl⟩ := heq
            exact ⟨hl c (by simp), l', d ++ '.' :: t, rfl,
              fun x hx => hl x (by simp [hx]),
              (domainMatch_iff _).mpr ⟨d, t, rfl, hdne, hd, hlen, ht⟩⟩

theorem validate_email_iff (e : String) :
    validate_email e = true ↔
      (emailSpecList e.data ∨ ∃ l, e.data = l ++ ['\n'] ∧ emailSpecList l) := by
  unfold validate_email
  simp only [Bool.or_eq_true, Bool.and_eq_true, beq_iff_eq, emailMatch_iff]
  apply or_congr Iff.rfl
  rcases List.eq_nil_or_concat e.data with hnil | ⟨l', a, hconcat⟩
  · rw [hnil]; simp
  · rw [hconcat, List.concat_eq_append]
    simp only [List.getLast?_concat, List.dropLast_concat, Option.some.injEq]
    constructor
    · rintro ⟨rfl, hspec⟩; exact ⟨l', rfl, hspec⟩
    · rintro ⟨l, heq, hspec⟩
      have h1 : l' = l := by
        have h := congrArg List.dropLast heq
        simpa [List.dropLast_concat] using h
      have h2 : a = '\n' := by
        have h := congrArg List.getLast? heq
        simpa [List.getLast?_concat] using h
      subst h1
      exact ⟨h2, hspec⟩

/-- C8 (counterexample): the regex-acceptance claim fails as an "if and
only if": by Python `re` semantics, `$` also matches just before a
trailing newline, so `validate_email` accepts the eight-character
string "a@b.co\n" even though it has a newline after the final two
letters, which the claimed characterisation rejects. -/
theorem C8_counterexample :
    validate_email "a@b.co\n" = true ∧ ¬ emailSpec "a@b.co\n" := by
  refine ⟨by decide, ?_⟩
  rintro ⟨l, d, t, heq, -, -, -, -, hlen, ht⟩
  rcases List.eq_nil_or_concat t with rfl | ⟨t', c, rfl⟩
  · simp at hlen
  · have hc : c ∈ t'.concat c := by simp
    have hlet := ht c hc
    have heq2 : "a@b.co\n".data = (l ++ '@' :: (d ++ '.' :: t')) ++ [c] := by
      rw [heq, List.concat_eq_append]
      simp [List.append_assoc]
    have h3 := congrArg List.getLast? heq2
    rw [List.getLast?_concat] at h3
    have h4 : "a@b.co\n".data.getLast? = some '\n' := by decide
    rw [h4] at h3
    obtain rfl : '\n' = c := Option.some.injEq _ _ ▸ h3
    exact absurd hlet (by decide)

/-- C8 (amended): `validate_email e` returns true if and only if `e`
consists of one or more characters from `[a-zA-Z0-9._%+-]`, then `@`,
then one or more characters from `[a-zA-Z0-9.-]`, then `.`, then at
least two ASCII letters, with either nothing after them or exactly one
trailing newline character (Python's `$` matches before a final
newline). -/
theorem C8_amended (e : String) :
    validate_email e = true ↔
      (emailSpec e ∨ ∃ l, e.data = l ++ ['\n'] ∧ emailSpecList l) := by
  simpa [emailSpec] using validate_email_iff e

/-- C8 witness: the amended characterisation applied to a concrete
accepted address. -/
theorem C8_witness :
    emailSpec "a@b.co" ∨ ∃ l, "a@b.co".data = l ++ ['\n'] ∧ emailSpecList l :=
  (C8_amended "a@b.co").mp (by decide)

/-! ## Generic machinery for state invariants -/

theorem foldl_invariant (P : DBState → Prop) (Q : DBOp → Prop)
    (hstep : ∀ db op, Q op → P db → P (applyOp db op)) :
    ∀ (ops : List DBOp) (db : DBState), (∀ op ∈ ops, Q op) → P db →
      P (ops.foldl applyOp db) := by
  intro ops
  induction ops with
  | nil => intro db _ hdb; exact hdb
  | cons op rest ih =>
      intro db hops hdb
      exact ih _ (fun o ho => hops o (List.mem_cons_of_mem _ ho))
        (hstep db op (hops op (List.mem_cons_self _ _)) hdb)

/-- Every operation except `update_course` preserves uniqueness of
course names: the adds leave `courses` alone or check for a duplicate
first, the deletes shrink the table, and the instructor re-assignments
keep every course_name. -/
theorem applyOp_preserves_courseNamesUnique (db : DBState) (op : DBOp)
    (hop : isUpdateCourseOp op = false) (hP : courseNamesUnique db) :
    courseNamesUnique (applyOp db op) := by
  unfold courseNamesUnique at hP ⊢
  cases op with
  | addStudent s =>
      simp only [applyOp, applyOpR, add_student]
      split
      · exact hP
      · split
        · exact hP
        · exact hP
  | addInstructor i =>
      simp only [applyOp, applyOpR, add_instructor]
      split
      · exact hP
      · split
        · exact hP
        · exact hP
  | addCourse c =>
      simp only [applyOp, applyOpR, add_course]
      split
      · exact hP
      · split
        · exact hP
        · rename_i hdup
          simp only [List.map_append, List.map_cons, List.map_nil]
          rw [List.nodup_append]
          refine ⟨hP, List.nodup_singleton _, ?_⟩
          intro a ha hb
          simp only [List.mem_singleton] at hb
          subst hb
          obtain ⟨r, hr, hname⟩ := List.mem_map.mp ha
          apply hdup
          rw [List.any_eq_true]
          exact ⟨r, hr, by simp [hname]⟩
  | registerStudentCourse sid cid =>
      simp only [applyOp, applyOpR, register_student_course]
      split
      · exact hP
      · exact hP
  | updateCourseInstructor cid iid =>
      simp only [applyOp, applyOpR, update_course_instructor, List.map_map]
      have h : ∀ a ∈ db.courses,
          ((fun c => c.course_name) ∘ fun c =>
            if c.course_id == cid then { c with instructor_id := iid } else c) a
            = a.course_name := by
        intro a _
        dsimp only [Function.comp]
        split
        · rfl
        · rfl
      rw [List.map_congr_left h]
      exact hP
  | deleteStudent sid => exact hP
  | deleteInstructor iid => exact hP
  | deleteCourse cid =>
      simp only [applyOp, applyOpR, delete_course]
      exact List.Nodup.sublist ((List.filter_sublist _).map _) hP
  | updateStudent sid n a e => exact hP
  | updateInstructor iid n a e => exact hP
  | updateCourse cid n iid => simp [isUpdateCourseOp] at hop

/-- C1 (corrected, counterexample): course-name uniqueness is not
preserved by every operation sequence: from the empty database, add an
instructor, add courses named "AA" and "BB", then `update_course` the
second course to the name "AA"; `update_course` performs no duplicate
check, so two rows of the courses table now share the name "AA". -/
theorem C1_counterexample :
    ¬ courseNamesUnique (runOps
      [DBOp.addInstructor { name := "I", age := 30, email := "i@x.co" },
       DBOp.addCourse { course_name := "AA", instructor_id := 1 },
       DBOp.addCourse { course_name := "BB", instructor_id := 1 },
       DBOp.updateCourse 2 "AA" 1]) := by decide

/-- C1 (amended): starting from the empty database, after any sequence
of Database operations that contains no `update_course` call, no two
rows of the courses table share a course_name. -/
theorem C1_amended (ops : List DBOp) (h : ∀ op ∈ ops, isUpdateCourseOp op = false) :
    courseNamesUnique (runOps ops) := by
  unfold runOps
  exact foldl_invariant courseNamesUnique (fun op => isUpdateCourseOp op = false)
    applyOp_preserves_courseNamesUnique ops emptyDB h (by decide)

/-- C1 witness: the amended invariant on a concrete sequence that adds
an instructor and two distinct courses. -/
theorem C1_witness :
    courseNamesUnique (runOps
      [DBOp.addInstructor { name := "I", age := 30, email := "i@x.co" },
       DBOp.addCourse { course_name := "AA", instructor_id := 1 },
       DBOp.addCourse { course_name := "BB", instructor_id := 1 }]) :=
  C1_amended _ (by decide)

/-- Every operation except `update_student` and `update_instructor`
preserves email validity and age positivity of all person rows: the
adds validate before inserting, and the remaining operations never
touch the name/age/email columns. -/
theorem applyOp_preserves_peopleRowsOk (db : DBState) (op : DBOp)
    (hop : isPersonUpdateOp op = false) (hP : peopleRowsOk db) :
    peopleRowsOk (applyOp db op) := by
  obtain ⟨hS, hI⟩ := hP
  cases op with
  | addStudent s =>
      simp only [applyOp, applyOpR, add_student]
      split
      · exact ⟨hS, hI⟩
      · split
        · exact ⟨hS, hI⟩
        · rename_i hmail hage
          refine ⟨?_, hI⟩
          intro r hr
          rcases List.mem_append.mp hr with hr | hr
          · exact hS r hr
          · simp only [List.mem_singleton] at hr
            subst hr
            refine ⟨?_, ?_⟩
            · revert hmail
              cases validate_email s.email <;> simp
            · exact not_le.mp hage
  | addInstructor i =>
      simp only [applyOp, applyOpR, add_instructor]
      split
      · exact ⟨hS, hI⟩
      · split
        · exact ⟨hS, hI⟩
        · rename_i hmail hage
          refine ⟨hS, ?_⟩
          intro r hr
          rcases List.mem_append.mp hr with hr | hr
          · exact hI r hr
          · simp only [List.mem_singleton] at hr
            subst hr
            refine ⟨?_, ?_⟩
            · revert hmail
              cases validate_email i.email <;> simp
            · exact not_le.mp hage
  | addCourse c =>
      simp only [applyOp, applyOpR, add_course]
      split
      · exact ⟨hS, hI⟩
      · split
        · exact ⟨hS, hI⟩
        · exact ⟨hS, hI⟩
  | registerStudentCourse sid cid =>
      simp only [applyOp, applyOpR, register_student_course]
      split
      · exact ⟨hS, hI⟩
      · exact ⟨hS, hI⟩
  | updateCourseInstructor cid iid => exact ⟨hS, hI⟩
  | deleteStudent sid =>
      refine ⟨?_, hI⟩
      intro r hr
      exact hS r (List.mem_of_mem_filter hr)
  | deleteInstructor iid =>
      refine ⟨hS, ?_⟩
      intro r hr
      exact hI r (List.mem_of_mem_filter hr)
  | deleteCourse cid => exact ⟨hS, hI⟩
  | updateStudent sid n a e => simp [isPersonUpdateOp] at hop
  | updateInstructor iid n a e => simp [isPersonUpdateOp] at hop
  | updateCourse cid n iid => exact ⟨hS, hI⟩

/-- C2 (corrected, counterexample): the email/age invariant is not
preserved by every operation sequence: add a valid student, then
`update_student` it with email "bad"; `update_student` performs no
validation, so the students table now holds a row whose email
`validate_email` rejects. -/
theorem C2_counterexample :
    ¬ (∀ r ∈ (runOps
        [DBOp.addStudent { name := "S", age := 20, email := "s@x.co" },
         DBOp.updateStudent 1 "T" 20 "bad"]).students, studentRowOk r) := by decide

/-- C2 (amended): starting from the empty database, after any sequence
of Database operations that contains no `update_student` and no
`update_instructor` call, every row of the students table and of the
instructors table has an email accepted by `validate_email` and an age
strictly greater than zero. -/
theorem C2_amended (ops : List DBOp)
    (h : ∀ op ∈ ops, isPersonUpdateOp op = false) :
    (∀ r ∈ (runOps ops).students, studentRowOk r) ∧
    (∀ r ∈ (runOps ops).instructors, instructorRowOk r) := by
  unfold runOps
  exact foldl_invariant peopleRowsOk (fun op => isPersonUpdateOp op = false)
    applyOp_preserves_peopleRowsOk ops emptyDB h ⟨by simp [emptyDB], by simp [emptyDB]⟩

/-- C2 witness: the amended invariant on a concrete sequence adding a
student and an instructor. -/
theorem C2_witness :
    (∀ r ∈ (runOps
        [DBOp.addStudent { name := "S", age := 20, email := "s@x.co" },
         DBOp.addInstructor { name := "I", age := 30, email := "i@x.co" }]).students,
      studentRowOk r) ∧
    (∀ r ∈ (runOps
        [DBOp.addStudent { name := "S", age := 20, email := "s@x.co" },
         DBOp.addInstructor { name := "I", age := 30, email := "i@x.co" }]).instructors,
      instructorRowOk r) :=
  C2_amended _ (by decide)

/-- C3 (corrected, counterexample): `update_course_instructor` does no
foreign-key existence check: on a state whose instructors table has no
row with instructor_id 5, assigning instructor 5 to course 1 succeeds
and changes the courses table instead of refusing. -/
theorem C3_counterexample :
    (∀ r ∈ dbSample.instructors, r.instructor_id ≠ 5) ∧
    (update_course_instructor dbSample 1 5).2 = DBResult.ok ∧
    (update_course_instructor dbSample 1 5).1.courses ≠ dbSample.courses := by decide

/-- C3 (amended): for every database state, course_id, and
instructor_id such that no row of the instructors table has that
instructor_id, `update_course_instructor` still succeeds: it sets the
instructor_id of every courses row with the given course_id, keeps
every other courses row, and leaves the other three tables
unchanged. -/
theorem C3_amended (db : DBState) (cid iid : Int)
    (h : ∀ r ∈ db.instructors, r.instructor_id ≠ iid) :
    (update_course_instructor db cid iid).2 = DBResult.ok ∧
    (update_course_instructor db cid iid).1.students = db.students ∧
    (update_course_instructor db cid iid).1.instructors = db.instructors ∧
    (update_course_instructor db cid iid).1.student_courses = db.student_courses ∧
    (update_course_instructor db cid iid).1.courses.length = db.courses.length ∧
    (∀ c ∈ db.courses, c.course_id = cid →
      { c with instructor_id := iid } ∈ (update_course_instructor db cid iid).1.courses) ∧
    (∀ c ∈ db.courses, c.course_id ≠ cid →
      c ∈ (update_course_instructor db cid iid).1.courses) := by
  refine ⟨rfl, rfl, rfl, rfl, by simp [update_course_instructor], ?_, ?_⟩
  · intro c hc hcid
    unfold update_course_instructor
    dsimp only
    refine List.mem_map.mpr ⟨c, hc, ?_⟩
    rw [if_pos (beq_iff_eq.mpr hcid)]
  · intro c hc hcid
    unfold update_course_instructor
    dsimp only
    refine List.mem_map.mpr ⟨c, hc, ?_⟩
    rw [if_neg (fun hb => hcid (beq_iff_eq.mp hb))]

/-- C3 witness: the amended description applied to a concrete state
with a dangling instructor_id. -/
theorem C3_witness :
    (update_course_instructor dbSample 1 5).2 = DBResult.ok ∧
    (update_course_instructor dbSample 1 5).1.students = dbSample.students ∧
    (update_course_instructor dbSample 1 5).1.instructors = dbSample.instructors ∧
    (update_course_instructor dbSample 1 5).1.student_courses = dbSample.student_courses ∧
    (update_course_instructor dbSample 1 5).1.courses.length = dbSample.courses.length ∧
    (∀ c ∈ dbSample.courses, c.course_id = 1 →
      { c with instructor_id := 5 } ∈ (update_course_instructor dbSample 1 5).1.courses) ∧
    (∀ c ∈ dbSample.courses, c.course_id ≠ 1 →
      c ∈ (update_course_instructor dbSample 1 5).1.courses) :=
  C3_amended dbSample 1 5 (by decide)

/-- C4 (corrected, counterexample): not every write validates first:
`update_student` writes the email "bad", which `validate_email`
rejects, straight into the students table and reports success. -/
theorem C4_counterexample :
    validate_email "bad" = false ∧
    (update_student dbSample 1 "S" 20 "bad").2 = DBResult.ok ∧
    (update_student dbSample 1 "S" 20 "bad").1.students ≠ dbSample.students := by decide

/-- C4 (amended): the add operations validate before writing — an
invalid email or non-positive age aborts `add_student` and
`add_instructor`, and a missing instructor or a duplicate course name
aborts `add_course`, all with the state unchanged — but the update,
delete, and registration operations perform their single SQL statement
and commit with no prior validation: `register_student_course` inserts
any absent pair without checking that the student or course exists,
the three update operations always report success and install whatever
values they were given on every matching row, and the three delete
operations always report success and remove exactly the rows with the
given id. -/
theorem C4_amended :
    (∀ db s, validate_email s.email = false ∨ s.age ≤ 0 →
      add_student db s = (db, DBResult.error)) ∧
    (∀ db i, validate_email i.email = false ∨ i.age ≤ 0 →
      add_instructor db i = (db, DBResult.error)) ∧
    (∀ db c, ((∀ r ∈ db.instructors, r.instructor_id ≠ c.instructor_id) ∨
        (∃ r ∈ db.courses, r.course_name = c.course_name)) →
      add_course db c = (db, DBResult.error)) ∧
    (∀ db sid cid, (sid, cid) ∉ db.student_courses →
      register_student_course db sid cid =
        ({ db with student_courses := db.student_courses ++ [(sid, cid)] },
          DBResult.ok)) ∧
    (∀ db sid n a e, (update_student db sid n a e).2 = DBResult.ok ∧
      ∀ r ∈ db.students, r.student_id = sid →
        { student_id := sid, name := n, age := a, email := e : StudentRow }
          ∈ (update_student db sid n a e).1.students) ∧
    (∀ db iid n a e, (update_instructor db iid n a e).2 = DBResult.ok ∧
      ∀ r ∈ db.instructors, r.instructor_id = iid →
        { instructor_id := iid, name := n, age := a, email := e : InstructorRow }
          ∈ (update_instructor db iid n a e).1.instructors) ∧
    (∀ db cid n iid, (update_course db cid n iid).2 = DBResult.ok ∧
      ∀ c ∈ db.courses, c.course_id = cid →
        { course_id := cid, course_name := n, instructor_id := iid : CourseRow }
          ∈ (update_course db cid n iid).1.courses) ∧
    (∀ db cid iid, (update_course_instructor db cid iid).2 = DBResult.ok ∧
      ∀ c ∈ db.courses, c.course_id = cid →
        { c with instructor_id := iid }
          ∈ (update_course_instructor db cid iid).1.courses) ∧
    (∀ db sid, delete_student db sid =
      ({ db with students := db.students.filter fun r => decide (r.student_id ≠ sid) },
        DBResult.ok)) ∧
    (∀ db iid, delete_instructor db iid =
      ({ db with
          instructors := db.instructors.filter fun r => decide (r.instructor_id ≠ iid) },
        DBResult.ok)) ∧
    (∀ db cid, delete_course db cid =
      ({ db with courses := db.courses.filter fun c => decide (c.course_id ≠ cid) },
        DBResult.ok)) := by
  refine ⟨?_, ?_, ?_, ?_, ?_, ?_, ?_, ?_, ?_, ?_, ?_⟩
  · intro db s h
    unfold add_student
    rcases h with h | h
    · rw [if_pos h]
    · by_cases hm : validate_email s.email = false
      · rw [if_pos hm]
      · rw [if_neg hm, if_pos h]
  · intro db i h
    unfold add_instructor
    rcases h with h | h
    · rw [if_pos h]
    · by_cases hm : validate_email i.email = false
      · rw [if_pos hm]
      · rw [if_neg hm, if_pos h]
  · intro db c h
    have hcrs : (db.courses.any fun r => r.course_name == c.course_name) = true ↔
        ∃ r ∈ db.courses, r.course_name = c.course_name := by
      rw [List.any_eq_true]; simp
    unfold add_course
    rcases h with h | h
    · have h1 : (db.instructors.any fun r => r.instructor_id == c.instructor_id) = false := by
        rw [Bool.eq_false_iff]
        intro hany
        rw [List.any_eq_true] at hany
        obtain ⟨r, hr, hbeq⟩ := hany
        exact h r hr (beq_iff_eq.mp hbeq)
      rw [if_pos h1]
    · by_cases hi : (db.instructors.any fun r => r.instructor_id == c.instructor_id) = false
      · rw [if_pos hi]
      · rw [if_neg hi, if_pos (hcrs.mpr h)]
  · intro db sid cid h
    have hneg : ¬ ((db.student_courses.any fun p => p.1 == sid && p.2 == cid) = true) := by
      intro hany
      rw [List.any_eq_true] at hany
      obtain ⟨p, hp, hbeq⟩ := hany
      rw [Bool.and_eq_true, beq_iff_eq, beq_iff_eq] at hbeq
      have hpeq : p = (sid, cid) := Prod.ext hbeq.1 hbeq.2
      rw [hpeq] at hp
      exact h hp
    unfold register_student_course
    rw [if_neg hneg]
  · intro db sid n a e
    refine ⟨rfl, ?_⟩
    intro r hr hid
    subst hid
    unfold update_student
    dsimp only
    refine List.mem_map.mpr ⟨r, hr, ?_⟩
    rw [if_pos (by simp)]
  · intro db iid n a e
    refine ⟨rfl, ?_⟩
    intro r hr hid
    subst hid
    unfold update_instructor
    dsimp only
    refine List.mem_map.mpr ⟨r, hr, ?_⟩
    rw [if_pos (by simp)]
  · intro db cid n iid
    refine ⟨rfl, ?_⟩
    intro c hc hid
    subst hid
    unfold update_course
    dsimp only
    refine List.mem_map.mpr ⟨c, hc, ?_⟩
    rw [if_pos (by simp)]
  · intro db cid iid
    refine ⟨rfl, ?_⟩
    intro c hc hid
    unfold update_course_instructor
    dsimp only
    refine List.mem_map.mpr ⟨c, hc, ?_⟩
    rw [if_pos (beq_iff_eq.mpr hid)]
  · intro db sid
    unfold delete_student
    have hf : (db.students.filter fun r => !(r.student_id == sid)) =
        db.students.filter fun r => decide (r.student_id ≠ sid) := by
      apply List.filter_congr
      intro r _
      by_cases h : r.student_id = sid <;> simp [h]
    rw [hf]
  · intro db iid
    unfold delete_instructor
    have hf : (db.instructors.filter fun r => !(r.instructor_id == iid)) =
        db.instructors.filter fun r => decide (r.instructor_id ≠ iid) := by
      apply List.filter_congr
      intro r _
      by_cases h : r.instructor_id = iid <;> simp [h]
    rw [hf]
  · intro db cid
    unfold delete_course
    have hf : (db.courses.filter fun c => !(c.course_id == cid)) =
        db.courses.filter fun c => decide (c.course_id ≠ cid) := by
      apply List.filter_congr
      intro c _
      by_cases h : c.course_id = cid <;> simp [h]
    rw [hf]

/-- C4 witness: on concrete inputs — a rejected add (non-positive
age), an unchecked registration of a pair whose course does not
exist, an unvalidated update writing an invalid email, and a delete
of a non-existent id that still reports success. -/
theorem C4_witness :
    add_student dbSample { name := "X", age := -1, email := "x@y.co" }
        = (dbSample, DBResult.error) ∧
    register_student_course dbSample 1 2
        = ({ dbSample with student_courses := dbSample.student_courses ++ [(1, 2)] },
            DBResult.ok) ∧
    ({ student_id := 1, name := "T", age := 25, email := "zz" : StudentRow }
        ∈ (update_student dbSample 1 "T" 25 "zz").1.students) ∧
    delete_student dbSample 7
        = ({ dbSample with
              students := dbSample.students.filter fun r => decide (r.student_id ≠ 7) },
            DBResult.ok) :=
  ⟨C4_amended.1 dbSample _ (Or.inr (by decide)),
   C4_amended.2.2.2.1 dbSample 1 2 (by decide),
   (C4_amended.2.2.2.2.1 dbSample 1 "T" 25 "zz").2
     { student_id := 1, name := "S", age := 20, email := "s@x.co" } (by decide) (by decide),
   C4_amended.2.2.2.2.2.2.2.2.1 dbSample 7⟩

/-- C5 (confirmed): if the pair (student_id, course_id) is already in
student_courses, `register_student_course` hits the primary-key
IntegrityError, reports the duplicate-registration error, and leaves
the table unchanged; consequently, from the empty database the
student_courses table never holds a duplicate pair after any sequence
of operations. -/
theorem C5_duplicate_enrollment :
    (∀ db sid cid, (sid, cid) ∈ db.student_courses →
      register_student_course db sid cid = (db, DBResult.error)) ∧
    (∀ ops : List DBOp, (runOps ops).student_courses.Nodup) := by
  constructor
  · intro db sid cid h
    unfold register_student_course
    rw [if_pos]
    rw [List.any_eq_true]
    exact ⟨(sid, cid), h, by simp⟩
  · intro ops
    unfold runOps
    refine foldl_invariant (fun db => db.student_courses.Nodup) (fun _ => True)
      ?_ ops emptyDB (fun _ _ => trivial) (by simp [emptyDB])
    intro db op _ hP
    cases op with
    | addStudent s =>
        simp only [applyOp, applyOpR, add_student]
        split
        · exact hP
        · split
          · exact hP
          · exact hP
    | addInstructor i =>
        simp only [applyOp, applyOpR, add_instructor]
        split
        · exact hP
        · split
          · exact hP
          · exact hP
    | addCourse c =>
        simp only [applyOp, applyOpR, add_course]
        split
        · exact hP
        · split
          · exact hP
          · exact hP
    | registerStudentCourse sid cid =>
        simp only [applyOp, applyOpR, register_student_course]
        split
        · exact hP
        · rename_i hnot
          show (db.student_courses ++ [(sid, cid)]).Nodup
          rw [List.nodup_append]
          refine ⟨hP, List.nodup_singleton _, ?_⟩
          intro p hp hq
          simp only [List.mem_singleton] at hq
          subst hq
          apply hnot
          rw [List.any_eq_true]
          exact ⟨(sid, cid), hp, by simp⟩
    | updateCourseInstructor cid iid => exact hP
    | deleteStudent sid => exact hP
    | deleteInstructor iid => exact hP
    | deleteCourse cid => exact hP
    | updateStudent sid n a e => exact hP
    | updateInstructor iid n a e => exact hP
    | updateCourse cid n iid => exact hP

/-- C5 witness: rejecting the concrete duplicate pair (1, 1) of
`dbSample`, and no-duplicates after a concrete run. -/
theorem C5_witness :
    register_student_course dbSample 1 1 = (dbSample, DBResult.error) ∧
    (runOps [DBOp.registerStudentCourse 1 2]).student_courses.Nodup :=
  ⟨C5_duplicate_enrollment.1 dbSample 1 1 (by decide),
   C5_duplicate_enrollment.2 [DBOp.registerStudentCourse 1 2]⟩

/-- C6 (confirmed): `add_course` errors with the courses table
unchanged when the course's instructor_id matches no instructors row
or its course_name is already taken, and otherwise inserts the course
under a fresh id. -/
theorem C6_add_course_checks (db : DBState) (c : Course) :
    (((¬ ∃ r ∈ db.instructors, r.instructor_id = c.instructor_id) ∨
        (∃ r ∈ db.courses, r.course_name = c.course_name)) →
      add_course db c = (db, DBResult.error)) ∧
    ((∃ r ∈ db.instructors, r.instructor_id = c.instructor_id) →
      (¬ ∃ r ∈ db.courses, r.course_name = c.course_name) →
      add_course db c =
        ({ db with
            courses := db.courses ++
              [{ course_id := db.nextCourseId, course_name := c.course_name
               , instructor_id := c.instructor_id }]
          , nextCourseId := db.nextCourseId + 1 }, DBResult.ok)) := by
  have hins : (db.instructors.any fun r => r.instructor_id == c.instructor_id) = true ↔
      ∃ r ∈ db.instructors, r.instructor_id = c.instructor_id := by
    rw [List.any_eq_true]; simp
  have hcrs : (db.courses.any fun r => r.course_name == c.course_name) = true ↔
      ∃ r ∈ db.courses, r.course_name = c.course_name := by
    rw [List.any_eq_true]; simp
  constructor
  · intro h
    unfold add_course
    rcases h with h | h
    · have h1 : (db.instructors.any fun r => r.instructor_id == c.instructor_id) = false := by
        rw [Bool.eq_false_iff]
        intro hany
        exact h (hins.mp hany)
      rw [if_pos h1]
    · by_cases hi : (db.instructors.any fun r => r.instructor_id == c.instructor_id) = false
      · rw [if_pos hi]
      · rw [if_neg hi, if_pos (hcrs.mpr h)]
  · intro hex hno
    have h1 : ¬ ((db.instructors.any fun r => r.instructor_id == c.instructor_id) = false) := by
      rw [hins.mpr hex]
      simp
    have h2 : ¬ ((db.courses.any fun r => r.course_name == c.course_name) = true) := by
      intro hany
      exact hno (hcrs.mp hany)
    unfold add_course
    rw [if_neg h1, if_neg h2]

/-- C6 witness: a duplicate course name rejected and a fresh course
inserted, on a concrete state. -/
theorem C6_witness :
    add_course dbSample { course_name := "CS", instructor_id := 1 }
        = (dbSample, DBResult.error) ∧
    add_course dbSample { course_name := "Math", instructor_id := 1 }
        = ({ dbSample with
              courses := dbSample.courses ++
                [{ course_id := dbSample.nextCourseId, course_name := "Math"
                 , instructor_id := 1 }]
            , nextCourseId := dbSample.nextCourseId + 1 }, DBResult.ok) :=
  ⟨(C6_add_course_checks dbSample _).1 (Or.inr (by decide)),
   (C6_add_course_checks dbSample _).2 (by decide) (by decide)⟩

/-- Every operation either leaves the state untouched or reports
success: each error path of the Database layer returns before its
INSERT, or its INSERT itself fails, so nothing is written. -/
theorem applyOpR_unchanged_or_ok (db : DBState) (op : DBOp) :
    (applyOpR db op).1 = db ∨ (applyOpR db op).2 = DBResult.ok := by
  cases op with
  | addStudent s =>
      simp only [applyOpR, add_student]
      split
      · exact Or.inl rfl
      · split
        · exact Or.inl rfl
        · exact Or.inr rfl
  | addInstructor i =>
      simp only [applyOpR, add_instructor]
      split
      · exact Or.inl rfl
      · split
        · exact Or.inl rfl
        · exact Or.inr rfl
  | addCourse c =>
      simp only [applyOpR, add_course]
      split
      · exact Or.inl rfl
      · split
        · exact Or.inl rfl
        · exact Or.inr rfl
  | registerStudentCourse sid cid =>
      simp only [applyOpR, register_student_course]
      split
      · exact Or.inl rfl
      · exact Or.inr rfl
  | updateCourseInstructor cid iid => exact Or.inr rfl
  | deleteStudent sid => exact Or.inr rfl
  | deleteInstructor iid => exact Or.inr rfl
  | deleteCourse cid => exact Or.inr rfl
  | updateStudent sid n a e => exact Or.inr rfl
  | updateInstructor iid n a e => exact Or.inr rfl
  | updateCourse cid n iid => exact Or.inr rfl

/-- C7 (confirmed): whenever a write operation of the Database layer
fails — a validation failure in an add or the duplicate-enrollment
IntegrityError — it performs no write at all: the resulting state,
all four tables included, is exactly the state before the call. -/
theorem C7_failure_atomic (db : DBState) (op : DBOp)
    (h : (applyOpR db op).2 = DBResult.error) : (applyOpR db op).1 = db := by
  rcases applyOpR_unchanged_or_ok db op with h1 | h1
  · exact h1
  · rw [h1] at h
    exact DBResult.noConfusion h

/-- C7 witness: the failing duplicate registration on `dbSample`
leaves the state intact. -/
theorem C7_witness :
    (applyOpR dbSample (DBOp.registerStudentCourse 1 1)).2 = DBResult.error ∧
    (applyOpR dbSample (DBOp.registerStudentCourse 1 1)).1 = dbSample :=
  ⟨by decide, C7_failure_atomic dbSample _ (by decide)⟩

/-- C9 (confirmed): for a student with a `validate_email`-accepted
email and positive age, `add_student` succeeds and `get_students`
returns the old list extended with one new row carrying the student's
name, age, and email under the fresh id, and `delete_student` of that
id restores the old list. -/
theorem C9_crud_round_trip (db : DBState) (s : Student)
    (hvalid : validate_email s.email = true) (hage : 0 < s.age)
    (hfresh : ∀ r ∈ db.students, r.student_id ≠ db.nextStudentId) :
    (add_student db s).2 = DBResult.ok ∧
    get_students (add_student db s).1 =
      get_students db ++
        [{ student_id := db.nextStudentId, name := s.name, age := s.age
         , email := s.email }] ∧
    get_students (delete_student (add_student db s).1 db.nextStudentId).1 =
      get_students db := by
  have h1 : ¬ (validate_email s.email = false) := by rw [hvalid]; simp
  have h2 : ¬ (s.age ≤ 0) := not_le.mpr hage
  unfold add_student
  rw [if_neg h1, if_neg h2]
  refine ⟨rfl, rfl, ?_⟩
  show ((db.students ++
      [{ student_id := db.nextStudentId, name := s.name, age := s.age
       , email := s.email : StudentRow }]).filter
        fun r => !(r.student_id == db.nextStudentId)) = db.students
  rw [List.filter_append]
  have hnew : (List.filter (fun r => !(r.student_id == db.nextStudentId))
      [{ student_id := db.nextStudentId, name := s.name, age := s.age
       , email := s.email : StudentRow }]) = [] := by simp
  have hold : (db.students.filter fun r => !(r.student_id == db.nextStudentId))
      = db.students := by
    rw [List.filter_eq_self]
    intro r hr
    simp only [Bool.not_eq_true', beq_eq_false_iff_ne]
    exact hfresh r hr
  rw [hnew, hold, List.append_nil]

/-- C9 witness: the round trip on the empty database with a concrete
valid student. -/
theorem C9_witness :
    (add_student emptyDB { name := "S", age := 20, email := "s@x.co" }).2
        = DBResult.ok ∧
    get_students (add_student emptyDB { name := "S", age := 20, email := "s@x.co" }).1 =
      get_students emptyDB ++
        [{ student_id := emptyDB.nextStudentId, name := "S", age := 20
         , email := "s@x.co" }] ∧
    get_students (delete_student
        (add_student emptyDB { name := "S", age := 20, email := "s@x.co" }).1
        emptyDB.nextStudentId).1 = get_students emptyDB :=
  C9_crud_round_trip emptyDB _ (by decide) (by decide) (by decide)

/-- C10 (confirmed): `delete_student` removes exactly the students
rows with the given id, reports success, and leaves the instructors,
courses, and student_courses tables unchanged — in particular,
enrollment pairs referencing the deleted student stay behind as
dangling references. -/
theorem C10_delete_student_frame (db : DBState) (sid : Int) :
    (delete_student db sid).1.students =
      db.students.filter (fun r => decide (r.student_id ≠ sid)) ∧
    (delete_student db sid).1.instructors = db.instructors ∧
    (delete_student db sid).1.courses = db.courses ∧
    (delete_student db sid).1.student_courses = db.student_courses ∧
    (delete_student db sid).2 = DBResult.ok := by
  refine ⟨?_, rfl, rfl, rfl, rfl⟩
  show (db.students.filter fun r => !(r.student_id == sid)) =
    db.students.filter fun r => decide (r.student_id ≠ sid)
  apply List.filter_congr
  intro r _
  by_cases h : r.student_id = sid <;> simp [h]
